import Mathlib

/-!
Verification development for the gruffud repository: the Finnish
frequency-corpus importer (`bulk_import_finnish`) and the batched sentence
generator (`initial_sentences`).  The repository ships two variants of each
command: one under `eleri/management/commands` (suffix `A` below) and one
under `gruffud/eleri/management/commands` (suffix `B` below).  Both are
embedded here.
-/

namespace Gruffud

/-! ## Line grammar of the corpus importer

The import regex is
`\d+ \d+ (?P<form>[\w\-:]+) \((?P<freq>\d+\.\d+(?:e-\d+)?)`,
applied with `search` (leftmost match).  Every character class used is
disjoint from the literal that follows it, so greedy matching coincides with
maximal munch.  `\w` is modelled on its ASCII fragment (alphanumerics and
underscore); all inputs considered here are ASCII. -/

def isFormChar (c : Char) : Bool :=
  c.isAlphanum || c = '_' || c = '-' || c = ':'

def digitSpan (s : List Char) : List Char × List Char :=
  (s.takeWhile Char.isDigit, s.dropWhile Char.isDigit)

/-- The captured `freq` group: integer digits, fraction digits, and the
optional digits of a negative exponent (`e-<digits>`). -/
structure FreqGroups where
  intPart : List Char
  fracPart : List Char
  expPart : Option (List Char)
deriving Repr, DecidableEq

/-- Attempt the pattern at the start of `s`, returning the `form` and `freq`
captures.  The pattern is not anchored at the end: trailing characters
(such as ` %)`) are ignored. -/
def matchAt (s : List Char) : Option (String × FreqGroups) :=
  let (d1, s1) := digitSpan s
  if d1.isEmpty then none else
  match s1 with
  | ' ' :: s2 =>
    let (d2, s3) := digitSpan s2
    if d2.isEmpty then none else
    match s3 with
    | ' ' :: s4 =>
      let form := s4.takeWhile isFormChar
      let s5 := s4.dropWhile isFormChar
      if form.isEmpty then none else
      match s5 with
      | ' ' :: '(' :: s6 =>
        let (ip, s7) := digitSpan s6
        if ip.isEmpty then none else
        match s7 with
        | '.' :: s8 =>
          let (fp, s9) := digitSpan s8
          if fp.isEmpty then none else
          let ep : Option (List Char) :=
            match s9 with
            | 'e' :: '-' :: s10 =>
              let (ed, _) := digitSpan s10
              if ed.isEmpty then none else some ed
            | _ => none
          some (String.mk form, ⟨ip, fp, ep⟩)
        | _ => none
      | _ => none
    | _ => none
  | _ => none

/-- `re.search`: try the pattern at each position from the left. -/
def searchFrom : List Char → Option (String × FreqGroups)
  | [] => none
  | c :: rest =>
    match matchAt (c :: rest) with
    | some r => some r
    | none => searchFrom rest

def searchLine (line : String) : Option (String × FreqGroups) :=
  searchFrom line.data

def digitsToNat (ds : List Char) : Nat :=
  ds.foldl (fun a c => 10 * a + (c.toNat - 48)) 0

/-- Numeric value of the captured `freq` group (`float(groups['freq'])`),
modelled exactly over ℚ. -/
def freqVal (g : FreqGroups) : ℚ :=
  let base : ℚ :=
    (digitsToNat g.intPart : ℚ) +
      (digitsToNat g.fracPart : ℚ) / ((10 : ℚ) ^ g.fracPart.length)
  match g.expPart with
  | none => base
  | some e => base / (10 : ℚ) ^ digitsToNat e

/-! ## Data model -/

/-- A `Word` row: language code, surface form, and normalized frequency. -/
structure Word where
  language : String
  form : String
  frequency : ℚ
deriving Repr, DecidableEq

/-- Python `str.strip()`: remove leading and trailing whitespace. -/
def pyStrip (s : String) : String :=
  String.mk
    (((s.data.dropWhile Char.isWhitespace).reverse.dropWhile
        Char.isWhitespace).reverse)

/-! ## Importer, variant A (`eleri/.../bulk_import_finnish.py`)

State: the staged `bulk` map keyed by form (first occurrence wins) and the
reject log `trash`.  Rejected lines are written through `line.strip()`. -/

structure ImportStateA where
  bulk : List Word
  trash : List String
deriving Repr, DecidableEq

def hasForm (bulk : List Word) (f : String) : Bool :=
  bulk.any (fun w => w.form == f)

def importStepA (st : ImportStateA) (line : String) : ImportStateA :=
  match searchLine line with
  | none => { st with trash := st.trash ++ [pyStrip line] }
  | some (form, g) =>
    if hasForm st.bulk form then
      { st with trash := st.trash ++ [pyStrip line] }
    else
      { st with
          bulk := st.bulk ++
            [{ language := "fi", form := form, frequency := freqVal g / 100 }] }

def importA (lines : List String) : ImportStateA :=
  lines.foldl importStepA ⟨[], []⟩

/-! ## Importer, variant B (`gruffud/eleri/.../bulk_import_finnish.py`)

No in-memory dedup: every parsed line is appended to `bulk`; the database
insert later uses `ignore_conflicts=True` on the `(language, form)` unique
constraint. -/

structure ImportStateB where
  bulk : List Word
  trash : List String
deriving Repr, DecidableEq

def importStepB (st : ImportStateB) (line : String) : ImportStateB :=
  match searchLine line with
  | none => { st with trash := st.trash ++ [pyStrip line] }
  | some (form, g) =>
    { st with
        bulk := st.bulk ++
          [{ language := "fi", form := form, frequency := freqVal g / 100 }] }

def importB (lines : List String) : ImportStateB :=
  lines.foldl importStepB ⟨[], []⟩

/-- The `(language, form)` unique key of a `Word` row. -/
def wordKey (w : Word) : String × String :=
  (w.language, w.form)

/-- `bulk_create(objs, ignore_conflicts=True)` against a store holding the
set of present `(language, form)` keys: each staged row is inserted unless
its key is already present; returns the new key set and the number of rows
actually inserted. -/
def insertIgnoreConflicts :
    List (String × String) → List Word → List (String × String) × Nat
  | db, [] => (db, 0)
  | db, w :: ws =>
    if wordKey w ∈ db then insertIgnoreConflicts db ws
    else
      let r := insertIgnoreConflicts (db ++ [wordKey w]) ws
      (r.1, r.2 + 1)

/-! ## Sentence generator: data model

`Sentence` is imported by both generator variants from `eleri.models`, whose
definition of it is not part of the sources at hand. -/

/-- Modelled from the spec: the `Sentence` entity of the Lexicon Store
(its defining module is absent from the sources; only the `Phrase` era of
`models.py` is present).  Per the spec's data model, a sentence carries a
language and a text, `(language, text)` is unique, and sentences relate to
constituent words and to translation-linked sentences through join tables,
modelled below as the `wordLinks` and `transLinks` components of `Store`. -/
structure Sentence where
  language : String
  text : String
deriving Repr, DecidableEq

/-- The Lexicon Store as seen by the generator: word rows, sentence rows,
the word↔sentence join table, and the sentence↔sentence translation join
table. -/
structure Store where
  words : List Word
  sentences : List Sentence
  wordLinks : List (Sentence × Word)
  transLinks : List (Sentence × Sentence)
deriving Repr, DecidableEq

/-- `sentence__isnull=True` on a `Word`: the word occurs in some
word↔sentence join row. -/
def hasSentence (st : Store) (w : Word) : Bool :=
  st.wordLinks.any (fun p => p.2 == w)

/-- The filter `Word.objects.filter(language=first_language,
sentence__isnull=True)`. -/
def candWords (st : Store) (lang : String) : List Word :=
  st.words.filter (fun w => w.language == lang && !hasSentence st w)

/-- Candidate selection including `.order_by('-frequency')`: the filtered
words, in non-increasing frequency order. -/
def candidates (st : Store) (lang : String) : List Word :=
  List.insertionSort (fun a b => b.frequency ≤ a.frequency)
    (candWords st lang)

/-- The parsed JSON response of the service: an object keyed by word form,
each value holding the original and the translated sentence. -/
abbrev DataMap : Type :=
  List (String × String × String)

/-- `word.form in data` / `data[word.form]`. -/
def lookupData (data : DataMap) (form : String) : Option (String × String) :=
  match data.find? (fun e => e.1 == form) with
  | none => none
  | some e => some e.2

/-! ## Generator, variant A (`eleri/.../initial_sentences.py`): per-word
processing with `get_or_create` and a transaction per word. -/

/-- Idempotent insertion into a join table (`ManyRelatedManager.add`). -/
def addLink {α : Type} [DecidableEq α] (l : List α) (x : α) : List α :=
  if x ∈ l then l else l ++ [x]

/-- `Sentence.objects.get_or_create(language=..., text=...)`: the store
after ensuring the `(language, text)` row exists. -/
def getOrCreate (st : Store) (lang text : String) : Store :=
  if (⟨lang, text⟩ : Sentence) ∈ st.sentences then st
  else { st with sentences := st.sentences ++ [⟨lang, text⟩] }

/-- One iteration of variant A's per-word loop body (inside its
`transaction.atomic()`): get-or-create both sentences, add the translation
link in both directions, and link the source sentence to the word. -/
def applyWordA (src tgt : String) (st : Store) (w : Word)
    (orig transl : String) : Store :=
  let s : Sentence := ⟨src, orig⟩
  let t : Sentence := ⟨tgt, transl⟩
  let st2 := getOrCreate (getOrCreate st src orig) tgt transl
  { st2 with
      transLinks := addLink (addLink st2.transLinks (s, t)) (t, s),
      wordLinks := addLink st2.wordLinks (s, w) }

def noDataWarn (f : String) : String :=
  "No data for " ++ f

/-- Variant A's loop over one chunk.  Each word's writes run in their own
transaction; `failOn` injects a persistence failure for a word's
transaction, which rolls back only that word's writes and aborts the job
(the exception propagates).  Returns the store, the warnings issued, and
whether the job aborted. -/
def processChunkA (src tgt : String) (data : DataMap)
    (failOn : String → Bool) :
    Store → List Word → Store × List String × Bool
  | st, [] => (st, [], false)
  | st, w :: ws =>
    match lookupData data w.form with
    | none =>
      let r := processChunkA src tgt data failOn st ws
      (r.1, noDataWarn w.form :: r.2.1, r.2.2)
    | some (orig, transl) =>
      if failOn w.form then (st, [], true)
      else processChunkA src tgt data failOn
        (applyWordA src tgt st w orig transl) ws

/-! ## Generator, variant B (`gruffud/eleri/.../initial_sentences.py`):
build the whole chunk's rows first (`data[word.form]` raises `KeyError` on
a missing form), then persist them in one transaction. -/

/-- The sentence/translation pairs variant B builds for a chunk before its
transaction; a missing form aborts with that form (`KeyError`). -/
def buildPairsB (src tgt : String) (data : DataMap) :
    List Word → Except String (List (Sentence × Sentence))
  | [] => .ok []
  | w :: ws =>
    match lookupData data w.form with
    | none => .error w.form
    | some (orig, transl) =>
      match buildPairsB src tgt data ws with
      | .error e => .error e
      | .ok ps => .ok ((⟨src, orig⟩, ⟨tgt, transl⟩) :: ps)

/-- The writes of variant B's per-chunk transaction: bulk-create the
sentences then the translations, the word↔sentence rows zipping the new
source sentences with the chunk's words, and the translation rows in both
directions. -/
def applyChunkB (st : Store) (ws : List Word)
    (pairs : List (Sentence × Sentence)) : Store :=
  { st with
      sentences := st.sentences ++ pairs.map Prod.fst ++ pairs.map Prod.snd,
      wordLinks := st.wordLinks ++ (pairs.map Prod.fst).zip ws,
      transLinks := st.transLinks ++ pairs ++ pairs.map Prod.swap }

inductive ChunkError
  | keyError (form : String)
  | txnFail
deriving Repr, DecidableEq

/-- Variant B's handling of one chunk: build the rows (a missing form
raises before the transaction starts), then run the single per-chunk
transaction; `txnFails` injects a failure of that transaction, which rolls
back all of the chunk's writes. -/
def processChunkB (src tgt : String) (data : DataMap) (txnFails : Bool)
    (st : Store) (ws : List Word) : Store × Option ChunkError :=
  match buildPairsB src tgt data ws with
  | .error f => (st, some (.keyError f))
  | .ok pairs =>
    if txnFails then (st, some .txnFail)
    else (applyChunkB st ws pairs, none)

/-! ## Service-call outcomes and the retry loop -/

/-- One attempt of `client.chat.completions.create`: either a parsed
response, a `RateLimitError`, or an `InternalServerError`. -/
inductive Outcome
  | success (data : DataMap)
  | rateLimit (msg : String)
  | serverError (msg : String)

/-- `RATE_LIMIT_ERROR = 2`, the returncode of the `CommandError` raised on
a rate-limit rejection in variant A. -/
def RATE_LIMIT_ERROR : Nat :=
  2

/-- Result of the service-call phase for one chunk: parsed data, or a fatal
abort carrying the process exit status. -/
inductive CallResult
  | ok (data : DataMap)
  | fatal (msg : String) (returncode : Nat)
deriving DecidableEq

/-- Variant A's `while ...: try/except` loop over a trace of attempt
outcomes: success breaks with the data, `RateLimitError` raises
`CommandError(..., returncode=RATE_LIMIT_ERROR)`, `InternalServerError`
logs and retries immediately.  Also returns the number of attempts made;
`none` means the finite trace was exhausted with the loop still retrying. -/
def callLoopCount : List Outcome → Option CallResult × Nat
  | [] => (none, 0)
  | .success d :: _ => (some (.ok d), 1)
  | .rateLimit m :: _ => (some (.fatal m RATE_LIMIT_ERROR), 1)
  | .serverError _ :: rest =>
    let r := callLoopCount rest
    (r.1, r.2 + 1)

def callLoopA (trace : List Outcome) : Option CallResult :=
  (callLoopCount trace).1

/-- Variant B wraps the service call in no handler: it makes exactly one
attempt, and either error kind propagates as an uncaught exception, ending
the process with the generic exit status 1. -/
def callOnceB : Outcome → CallResult
  | .success d => .ok d
  | .rateLimit m => .fatal m 1
  | .serverError m => .fatal m 1

/-! ## Top-level generator run (variant A) -/

/-- `words[index:index + batch_size]` over the whole range: partition into
chunks of `n`, via a fuel argument bounded by the list length. -/
def chunksOfAux {α : Type} (n : Nat) : Nat → List α → List (List α)
  | 0, _ => []
  | _, [] => []
  | fuel + 1, x :: xs =>
    (x :: xs).take n :: chunksOfAux n fuel ((x :: xs).drop n)

def chunksOf {α : Type} (n : Nat) (l : List α) : List (List α) :=
  chunksOfAux n l.length l

def BATCH : Nat :=
  100

/-- The chunk loop of variant A: chunk `i` gets the attempt trace
`traces i`; a fatal call result (or an exhausted trace) aborts the run, as
does an injected per-word transaction failure inside `processChunkA`.
Returns the store, the total number of service attempts, and whether the
run aborted. -/
def runChunksA (src tgt : String) (traces : Nat → List Outcome)
    (failOn : String → Bool) :
    Nat → Store → List (List Word) → Store × Nat × Bool
  | _, st, [] => (st, 0, false)
  | i, st, c :: cs =>
    match callLoopCount (traces i) with
    | (some (.ok d), n) =>
      let pc := processChunkA src tgt d failOn st c
      if pc.2.2 then (pc.1, n, true)
      else
        let r := runChunksA src tgt traces failOn (i + 1) pc.1 cs
        (r.1, n + r.2.1, r.2.2)
    | (some (.fatal _ _), n) => (st, n, true)
    | (none, n) => (st, n, true)

/-- Observable outcome of one generator run. -/
structure RunResult where
  store : Store
  warnedNoWords : Bool
  clientConstructed : Bool
  serviceAttempts : Nat
  aborted : Bool
deriving DecidableEq

/-- Variant A's `handle`: select and order the candidates; if there are
none, write the warning and return (before the service client is even
constructed); otherwise construct the client and process the candidate
chunks. -/
def generatorRunA (src tgt : String) (traces : Nat → List Outcome)
    (failOn : String → Bool) (st : Store) : RunResult :=
  let cands := candidates st src
  if cands.length = 0 then
    { store := st, warnedNoWords := true, clientConstructed := false,
      serviceAttempts := 0, aborted := false }
  else
    let r := runChunksA src tgt traces failOn 0 st (chunksOf BATCH cands)
    { store := r.1, warnedNoWords := false, clientConstructed := true,
      serviceAttempts := r.2.1, aborted := r.2.2 }

/-! ## Shared helper lemmas: importer -/

theorem foldl_importStepA_count (lines : List String) (st : ImportStateA) :
    (lines.foldl importStepA st).bulk.length +
      (lines.foldl importStepA st).trash.length =
    st.bulk.length + st.trash.length + lines.length := by
  induction lines generalizing st with
  | nil => simp
  | cons l ls ih =>
    rw [List.foldl_cons, ih]
    unfold importStepA
    cases h : searchLine l with
    | none => simp; omega
    | some fg =>
      obtain ⟨form, g⟩ := fg
      by_cases hf : hasForm st.bulk form
      · simp [hf]; omega
      · simp [hf]; omega

theorem mem_db_insertIgnoreConflicts {db : List (String × String)}
    (ws : List Word) {k : String × String} (h : k ∈ db) :
    k ∈ (insertIgnoreConflicts db ws).1 := by
  induction ws generalizing db with
  | nil => simpa [insertIgnoreConflicts] using h
  | cons w ws ih =>
    unfold insertIgnoreConflicts
    by_cases hk : wordKey w ∈ db
    · simpa [hk] using ih h
    · simpa [hk] using ih (by simp [h])

theorem mem_staged_insertIgnoreConflicts {db : List (String × String)}
    {ws : List Word} {w : Word} (h : w ∈ ws) :
    wordKey w ∈ (insertIgnoreConflicts db ws).1 := by
  induction ws generalizing db with
  | nil => cases h
  | cons v vs ih =>
    unfold insertIgnoreConflicts
    by_cases hk : wordKey v ∈ db
    · rcases List.mem_cons.mp h with rfl | hmem
      · simpa [hk] using mem_db_insertIgnoreConflicts vs hk
      · simpa [hk] using ih hmem
    · rcases List.mem_cons.mp h with rfl | hmem
      · simpa [hk] using
          mem_db_insertIgnoreConflicts vs (by simp : wordKey w ∈ db ++ [wordKey w])
      · simpa [hk] using ih hmem

theorem insertIgnoreConflicts_count_zero {db : List (String × String)}
    {ws : List Word} (h : ∀ w ∈ ws, wordKey w ∈ db) :
    (insertIgnoreConflicts db ws).2 = 0 := by
  induction ws generalizing db with
  | nil => rfl
  | cons w ws ih =>
    unfold insertIgnoreConflicts
    have hw : wordKey w ∈ db := h w (by simp)
    simpa [hw] using ih (fun v hv => h v (by simp [hv]))

/-! ## Claims about the corpus importer -/

/-- Claim C1: every corpus line matched by the line grammar stages a `Word`
whose frequency is the parsed percentage divided by 100 (exactly, over ℚ),
in both importer variants; in variant A this is the case whenever the form
is not already staged. -/
theorem c1_frequency_normalized (stA : ImportStateA) (stB : ImportStateB)
    (line form : String) (g : FreqGroups)
    (h : searchLine line = some (form, g))
    (hfresh : hasForm stA.bulk form = false) :
    (importStepA stA line).bulk = stA.bulk ++
      [{ language := "fi", form := form, frequency := freqVal g / 100 }]
    ∧ (importStepB stB line).bulk = stB.bulk ++
      [{ language := "fi", form := form, frequency := freqVal g / 100 }] := by
  constructor
  · unfold importStepA
    rw [h]
    simp [hfresh]
  · unfold importStepB
    rw [h]

/-- Witness for C1 at the spec's example line `1 552162 ja (3.1363 %)`:
the staged word has form `ja` and frequency exactly 0.031363. -/
theorem c1_frequency_normalized_witness :
    searchLine "1 552162 ja (3.1363 %)" =
      some ("ja", ⟨['3'], ['1', '3', '6', '3'], none⟩)
    ∧ hasForm (ImportStateA.mk [] []).bulk "ja" = false
    ∧ (importStepA ⟨[], []⟩ "1 552162 ja (3.1363 %)").bulk =
      [{ language := "fi", form := "ja",
         frequency := freqVal ⟨['3'], ['1', '3', '6', '3'], none⟩ / 100 }]
    ∧ freqVal ⟨['3'], ['1', '3', '6', '3'], none⟩ / 100 =
      (31363 : ℚ) / 1000000 := by
  have hnum : freqVal ⟨['3'], ['1', '3', '6', '3'], none⟩ / 100 =
      (31363 : ℚ) / 1000000 := by
    have h1 : digitsToNat ['3'] = 3 := by decide
    have h2 : digitsToNat ['1', '3', '6', '3'] = 1363 := by decide
    simp only [freqVal, h1, h2, List.length_cons, List.length_nil]
    norm_num
  refine ⟨by decide, by decide, ?_, hnum⟩
  have h := c1_frequency_normalized ⟨[], []⟩ ⟨[], []⟩
    "1 552162 ja (3.1363 %)" "ja" ⟨['3'], ['1', '3', '6', '3'], none⟩
    (by decide) (by decide)
  simpa using h.1

/-- Claim C7: every input line is accounted for exactly once by variant A of
the importer: the number of staged words plus the number of reject-log
lines equals the number of input lines. -/
theorem c7_every_line_accounted (lines : List String) :
    (importA lines).bulk.length + (importA lines).trash.length =
      lines.length := by
  unfold importA
  simpa using foldl_importStepA_count lines ⟨[], []⟩

/-- Claim C8: re-running the importer (variant B, whose insertion tolerates
conflicts on the `(language, form)` unique key) over an already fully
imported file inserts zero new `Word` rows. -/
theorem c8_idempotent_import (lines : List String)
    (db : List (String × String)) :
    (insertIgnoreConflicts
      (insertIgnoreConflicts db (importB lines).bulk).1
      (importB lines).bulk).2 = 0 := by
  exact insertIgnoreConflicts_count_zero
    (fun w hw => mem_staged_insertIgnoreConflicts hw)

/-- Claim C9 (amended): every line the importer rejects — no grammar match,
or a duplicate form — leaves the staged words unchanged and appends the
line to the reject log after stripping leading and trailing whitespace
(hence verbatim exactly when the line has no surrounding whitespace). -/
theorem c9_reject_logged_stripped (st : ImportStateA) (line : String)
    (h : searchLine line = none ∨
      ∃ form g, searchLine line = some (form, g) ∧
        hasForm st.bulk form = true) :
    (importStepA st line).trash = st.trash ++ [pyStrip line]
    ∧ (importStepA st line).bulk = st.bulk := by
  unfold importStepA
  rcases h with h | ⟨form, g, h, hdup⟩
  · rw [h]
    exact ⟨rfl, rfl⟩
  · rw [h]
    simp [hdup]

/-- Witness for C9 at the spec's malformed example line
`7 12 xyz (invalid%)`: no word staged, and the reject-log entry is the line
itself (it has no surrounding whitespace, so stripping is the identity). -/
theorem c9_reject_logged_stripped_witness :
    (importStepA ⟨[], []⟩ "7 12 xyz (invalid%)").trash =
      [pyStrip "7 12 xyz (invalid%)"]
    ∧ (importStepA ⟨[], []⟩ "7 12 xyz (invalid%)").bulk = []
    ∧ pyStrip "7 12 xyz (invalid%)" = "7 12 xyz (invalid%)" := by
  have h := c9_reject_logged_stripped ⟨[], []⟩ "7 12 xyz (invalid%)"
    (Or.inl (by decide))
  exact ⟨by simpa using h.1, by simpa using h.2, by decide⟩

/-- Counterexample to C9 as stated: a rejected line carrying trailing
whitespace is logged stripped, not verbatim — the reject log after
importing the single line `7 12 xyz (invalid%) ` (note the trailing space)
does not contain that raw line. -/
theorem c9_counterexample :
    (importA ["7 12 xyz (invalid%) "]).trash ≠ ["7 12 xyz (invalid%) "]
    ∧ (importA ["7 12 xyz (invalid%) "]).trash = ["7 12 xyz (invalid%)"]
    ∧ (importA ["7 12 xyz (invalid%) "]).bulk = [] := by
  exact ⟨by decide, by decide, by decide⟩

/-! ## Shared helper lemmas: generator -/

def emptyStore : Store :=
  ⟨[], [], [], []⟩

/-- Symmetry of a translation join table. -/
def SymmLinks (l : List (Sentence × Sentence)) : Prop :=
  ∀ p ∈ l, Prod.swap p ∈ l

instance freqGEIsTotal :
    IsTotal Word (fun a b => b.frequency ≤ a.frequency) :=
  ⟨fun a b => le_total b.frequency a.frequency⟩

instance freqGEIsTrans :
    IsTrans Word (fun a b => b.frequency ≤ a.frequency) :=
  ⟨fun _ _ _ hab hbc => le_trans hbc hab⟩

theorem mem_addLink {α : Type} [DecidableEq α] {l : List α} {x q : α} :
    q ∈ addLink l x ↔ q ∈ l ∨ q = x := by
  unfold addLink
  by_cases h : x ∈ l
  · simp only [if_pos h]
    constructor
    · exact Or.inl
    · rintro (hq | rfl)
      · exact hq
      · exact h
  · simp [if_neg h]

theorem any_addLink {α : Type} [DecidableEq α] (l : List α) (x : α)
    (p : α → Bool) :
    (addLink l x).any p = (l.any p || p x) := by
  unfold addLink
  by_cases h : x ∈ l
  · simp only [if_pos h]
    cases hpx : p x with
    | false => simp
    | true =>
      simp only [Bool.or_true]
      exact List.any_eq_true.mpr ⟨x, h, hpx⟩
  · simp [if_neg h]

theorem symmLinks_addBoth {l : List (Sentence × Sentence)} {s t : Sentence}
    (h : SymmLinks l) :
    SymmLinks (addLink (addLink l (s, t)) (t, s)) := by
  intro p hp
  rw [mem_addLink, mem_addLink] at hp ⊢
  rcases hp with (hp | rfl) | rfl
  · exact Or.inl (Or.inl (h p hp))
  · exact Or.inr (by simp)
  · exact Or.inl (Or.inr (by simp))

theorem getOrCreate_transLinks (st : Store) (lang text : String) :
    (getOrCreate st lang text).transLinks = st.transLinks := by
  unfold getOrCreate
  split <;> rfl

theorem getOrCreate_wordLinks (st : Store) (lang text : String) :
    (getOrCreate st lang text).wordLinks = st.wordLinks := by
  unfold getOrCreate
  split <;> rfl

theorem getOrCreate_words (st : Store) (lang text : String) :
    (getOrCreate st lang text).words = st.words := by
  unfold getOrCreate
  split <;> rfl

theorem applyWordA_transLinks (src tgt : String) (st : Store) (w : Word)
    (orig transl : String) :
    (applyWordA src tgt st w orig transl).transLinks =
      addLink (addLink st.transLinks (⟨src, orig⟩, ⟨tgt, transl⟩))
        (⟨tgt, transl⟩, ⟨src, orig⟩) := by
  simp only [applyWordA, getOrCreate_transLinks]

theorem applyWordA_words (src tgt : String) (st : Store) (w : Word)
    (orig transl : String) :
    (applyWordA src tgt st w orig transl).words = st.words := by
  simp only [applyWordA, getOrCreate_words]

theorem applyWordA_hasSentence (src tgt : String) (st : Store) (w v : Word)
    (orig transl : String) (hne : w ≠ v) :
    hasSentence (applyWordA src tgt st w orig transl) v =
      hasSentence st v := by
  unfold hasSentence
  simp only [applyWordA, getOrCreate_wordLinks]
  rw [any_addLink]
  have hwv : (w == v) = false := beq_eq_false_iff_ne.mpr hne
  simp [hwv]

theorem processChunkA_cons_none (src tgt : String) (data : DataMap)
    (failOn : String → Bool) (st : Store) (w : Word) (ws : List Word)
    (h : lookupData data w.form = none) :
    processChunkA src tgt data failOn st (w :: ws) =
      ((processChunkA src tgt data failOn st ws).1,
       noDataWarn w.form :: (processChunkA src tgt data failOn st ws).2.1,
       (processChunkA src tgt data failOn st ws).2.2) := by
  simp only [processChunkA, h]

theorem processChunkA_cons_fail (src tgt : String) (data : DataMap)
    (failOn : String → Bool) (st : Store) (w : Word) (ws : List Word)
    (orig transl : String)
    (h : lookupData data w.form = some (orig, transl))
    (hf : failOn w.form = true) :
    processChunkA src tgt data failOn st (w :: ws) = (st, [], true) := by
  simp only [processChunkA, h, hf, if_true]

theorem processChunkA_cons_ok (src tgt : String) (data : DataMap)
    (failOn : String → Bool) (st : Store) (w : Word) (ws : List Word)
    (orig transl : String)
    (h : lookupData data w.form = some (orig, transl))
    (hf : failOn w.form = false) :
    processChunkA src tgt data failOn st (w :: ws) =
      processChunkA src tgt data failOn
        (applyWordA src tgt st w orig transl) ws := by
  simp only [processChunkA, h, hf, Bool.false_eq_true, if_false]

theorem processChunkA_words (src tgt : String) (data : DataMap)
    (failOn : String → Bool) :
    ∀ (ws : List Word) (st : Store),
    (processChunkA src tgt data failOn st ws).1.words = st.words := by
  intro ws
  induction ws with
  | nil => intro st; rfl
  | cons w ws ih =>
    intro st
    cases hl : lookupData data w.form with
    | none =>
      rw [processChunkA_cons_none src tgt data failOn st w ws hl]
      exact ih st
    | some d =>
      obtain ⟨orig, transl⟩ := d
      cases hf : failOn w.form with
      | true =>
        rw [processChunkA_cons_fail src tgt data failOn st w ws orig transl hl hf]
      | false =>
        rw [processChunkA_cons_ok src tgt data failOn st w ws orig transl hl hf]
        rw [ih (applyWordA src tgt st w orig transl)]
        exact applyWordA_words src tgt st w orig transl

theorem processChunkA_hasSentence (src tgt : String) (data : DataMap)
    (failOn : String → Bool) :
    ∀ (ws : List Word) (st : Store) (v : Word), v ∉ ws →
    hasSentence (processChunkA src tgt data failOn st ws).1 v =
      hasSentence st v := by
  intro ws
  induction ws with
  | nil => intro st v _; rfl
  | cons w ws ih =>
    intro st v hv
    have hvw : w ≠ v := fun h => hv (h ▸ List.mem_cons_self w ws)
    have hvs : v ∉ ws := fun h => hv (List.mem_cons_of_mem w h)
    cases hl : lookupData data w.form with
    | none =>
      rw [processChunkA_cons_none src tgt data failOn st w ws hl]
      exact ih st v hvs
    | some d =>
      obtain ⟨orig, transl⟩ := d
      cases hf : failOn w.form with
      | true =>
        rw [processChunkA_cons_fail src tgt data failOn st w ws orig transl hl hf]
      | false =>
        rw [processChunkA_cons_ok src tgt data failOn st w ws orig transl hl hf]
        rw [ih (applyWordA src tgt st w orig transl) v hvs]
        exact applyWordA_hasSentence src tgt st w v orig transl hvw

theorem processChunkA_symmLinks (src tgt : String) (data : DataMap)
    (failOn : String → Bool) :
    ∀ (ws : List Word) (st : Store), SymmLinks st.transLinks →
    SymmLinks (processChunkA src tgt data failOn st ws).1.transLinks := by
  intro ws
  induction ws with
  | nil => intro st h; exact h
  | cons w ws ih =>
    intro st h
    cases hl : lookupData data w.form with
    | none =>
      rw [processChunkA_cons_none src tgt data failOn st w ws hl]
      exact ih st h
    | some d =>
      obtain ⟨orig, transl⟩ := d
      cases hf : failOn w.form with
      | true =>
        rw [processChunkA_cons_fail src tgt data failOn st w ws orig transl hl hf]
        exact h
      | false =>
        rw [processChunkA_cons_ok src tgt data failOn st w ws orig transl hl hf]
        refine ih _ ?_
        rw [applyWordA_transLinks]
        exact symmLinks_addBoth h

theorem applyChunkB_symmLinks (st : Store) (ws : List Word)
    (pairs : List (Sentence × Sentence)) (h : SymmLinks st.transLinks) :
    SymmLinks (applyChunkB st ws pairs).transLinks := by
  intro p hp
  unfold applyChunkB at hp ⊢
  simp only [List.mem_append] at hp ⊢
  rcases hp with (hp | hp) | hp
  · exact Or.inl (Or.inl (h p hp))
  · exact Or.inr (List.mem_map_of_mem Prod.swap hp)
  · rcases List.mem_map.mp hp with ⟨q, hq, rfl⟩
    exact Or.inl (Or.inr (by simpa using hq))

theorem processChunkB_symmLinks (src tgt : String) (data : DataMap)
    (txnFails : Bool) (st : Store) (ws : List Word)
    (h : SymmLinks st.transLinks) :
    SymmLinks (processChunkB src tgt data txnFails st ws).1.transLinks := by
  unfold processChunkB
  cases hb : buildPairsB src tgt data ws with
  | error f => exact h
  | ok pairs =>
    cases ht : txnFails with
    | true => exact h
    | false => exact applyChunkB_symmLinks st ws pairs h

theorem mem_candWords {st : Store} {lang : String} {w : Word} :
    w ∈ candWords st lang ↔
      (w ∈ st.words ∧ w.language = lang ∧ hasSentence st w = false) := by
  unfold candWords
  rw [List.mem_filter]
  simp [and_assoc]

/-! ## Claims about the sentence generator -/

/-- Claim C2: the candidate words of a generator run are exactly the words
of the source language with zero linked sentences, and the candidate list —
the order in which the run processes them — is in non-increasing frequency
order. -/
theorem c2_candidates_set_and_order (st : Store) (lang : String) :
    (∀ w : Word, w ∈ candidates st lang ↔
      (w ∈ st.words ∧ w.language = lang ∧ hasSentence st w = false))
    ∧ (candidates st lang).Pairwise
        (fun a b => b.frequency ≤ a.frequency) := by
  constructor
  · intro w
    unfold candidates
    rw [List.mem_insertionSort]
    exact mem_candWords
  · exact List.sorted_insertionSort _ _

/-- Claim C3: both generator variants create translation links
symmetrically within one chunk's persistence step: if the translation join
table was symmetric before a chunk, it is symmetric after it (and in
particular every link the chunk adds is accompanied by its reverse). -/
theorem c3_translation_links_symmetric (src tgt : String) (data : DataMap)
    (failOn : String → Bool) (txnFails : Bool) (stA stB : Store)
    (ws : List Word) (hA : SymmLinks stA.transLinks)
    (hB : SymmLinks stB.transLinks) :
    SymmLinks (processChunkA src tgt data failOn stA ws).1.transLinks
    ∧ SymmLinks (processChunkB src tgt data txnFails stB ws).1.transLinks :=
  ⟨processChunkA_symmLinks src tgt data failOn ws stA hA,
   processChunkB_symmLinks src tgt data txnFails stB ws hB⟩

/-- Witness for C3 on a one-word chunk over an empty store, in both
variants. -/
theorem c3_translation_links_symmetric_witness :
    SymmLinks ((processChunkA "fi" "ru"
      [("kissa", "Minulla on kissa.", "U menya est koshka.")]
      (fun _ => false) emptyStore [⟨"fi", "kissa", 1⟩]).1.transLinks)
    ∧ SymmLinks ((processChunkB "fi" "ru"
      [("kissa", "Minulla on kissa.", "U menya est koshka.")]
      false emptyStore [⟨"fi", "kissa", 1⟩]).1.transLinks) :=
  c3_translation_links_symmetric "fi" "ru"
    [("kissa", "Minulla on kissa.", "U menya est koshka.")]
    (fun _ => false) false emptyStore emptyStore [⟨"fi", "kissa", 1⟩]
    (by simp [SymmLinks, emptyStore]) (by simp [SymmLinks, emptyStore])

theorem processChunkB_fail_frame (src tgt : String) (data : DataMap)
    (txnFails : Bool) (st : Store) (ws : List Word) (e : ChunkError)
    (h : (processChunkB src tgt data txnFails st ws).2 = some e) :
    (processChunkB src tgt data txnFails st ws).1 = st := by
  cases hb : buildPairsB src tgt data ws with
  | error f => simp [processChunkB, hb]
  | ok pairs =>
    cases ht : txnFails with
    | true => simp [processChunkB, hb, ht]
    | false => simp [processChunkB, hb, ht] at h

/-- Claim C4 (amended): in variant B all of a chunk's writes are inside the
single per-chunk transaction, so any chunk failure leaves the store
unchanged; in variant A each word's writes run in their own transaction, so
a persistence failure rolls back only the failing word's writes (earlier
words of the chunk stay committed, as the counterexample shows). -/
theorem c4_transaction_scope (src tgt : String) (data : DataMap)
    (txnFails : Bool) (st : Store) (ws : List Word) (e : ChunkError)
    (failOn : String → Bool) (w : Word) (tail : List Word)
    (orig transl : String)
    (hB : (processChunkB src tgt data txnFails st ws).2 = some e)
    (hA : lookupData data w.form = some (orig, transl))
    (hfail : failOn w.form = true) :
    (processChunkB src tgt data txnFails st ws).1 = st
    ∧ processChunkA src tgt data failOn st (w :: tail) = (st, [], true) :=
  ⟨processChunkB_fail_frame src tgt data txnFails st ws e hB,
   processChunkA_cons_fail src tgt data failOn st w tail orig transl
     hA hfail⟩

/-- Witness for C4: a failing per-chunk transaction in variant B leaves the
empty store unchanged; a failing per-word transaction in variant A rolls
back that word's writes. -/
theorem c4_transaction_scope_witness :
    (processChunkB "fi" "ru"
      [("kissa", "Minulla on kissa.", "U menya est koshka.")] true
      emptyStore [⟨"fi", "kissa", 1⟩]).1 = emptyStore
    ∧ processChunkA "fi" "ru"
        [("kissa", "Minulla on kissa.", "U menya est koshka.")]
        (fun f => f == "kissa") emptyStore [⟨"fi", "kissa", 1⟩] =
      (emptyStore, [], true) :=
  c4_transaction_scope "fi" "ru"
    [("kissa", "Minulla on kissa.", "U menya est koshka.")] true
    emptyStore [⟨"fi", "kissa", 1⟩] .txnFail (fun f => f == "kissa")
    ⟨"fi", "kissa", 1⟩ [] "Minulla on kissa." "U menya est koshka."
    (by decide) (by decide) (by decide)

/-- Counterexample to C4 as stated: in variant A (per-word transactions), a
chunk whose second word's persistence fails aborts with the first word's
writes still in the store — the chunk's writes are not all-or-nothing. -/
theorem c4_counterexample :
    ((processChunkA "fi" "ru"
      [("kissa", "Minulla on kissa.", "U menya est koshka."),
       ("koira", "Koira haukkuu.", "Sobaka laet.")]
      (fun f => f == "koira") emptyStore
      [⟨"fi", "kissa", 2⟩, ⟨"fi", "koira", 1⟩]).2.2 = true)
    ∧ (processChunkA "fi" "ru"
      [("kissa", "Minulla on kissa.", "U menya est koshka."),
       ("koira", "Koira haukkuu.", "Sobaka laet.")]
      (fun f => f == "koira") emptyStore
      [⟨"fi", "kissa", 2⟩, ⟨"fi", "koira", 1⟩]).1 ≠ emptyStore
    ∧ (⟨"fi", "Minulla on kissa."⟩ : Sentence) ∈
      (processChunkA "fi" "ru"
        [("kissa", "Minulla on kissa.", "U menya est koshka."),
         ("koira", "Koira haukkuu.", "Sobaka laet.")]
        (fun f => f == "koira") emptyStore
        [⟨"fi", "kissa", 2⟩, ⟨"fi", "koira", 1⟩]).1.sentences :=
  ⟨by decide, by decide, by decide⟩

/-- Claim C5 (amended): in variant A, a word whose form is absent from the
parsed response is skipped with a per-word warning, creating no record: the
store outcome is that of processing the rest of the chunk, the word gains
no sentence link, and it remains a candidate exactly when it was one.  (In
variant B a missing form instead raises, as the counterexample shows.) -/
theorem c5_missing_form_skipped (src tgt lang : String) (data : DataMap)
    (failOn : String → Bool) (st : Store) (w : Word) (ws : List Word)
    (hmiss : lookupData data w.form = none) (hnotin : w ∉ ws) :
    (processChunkA src tgt data failOn st (w :: ws)).1 =
      (processChunkA src tgt data failOn st ws).1
    ∧ (processChunkA src tgt data failOn st (w :: ws)).2.1 =
      noDataWarn w.form :: (processChunkA src tgt data failOn st ws).2.1
    ∧ (processChunkA src tgt data failOn st (w :: ws)).2.2 =
      (processChunkA src tgt data failOn st ws).2.2
    ∧ hasSentence (processChunkA src tgt data failOn st (w :: ws)).1 w =
      hasSentence st w
    ∧ (w ∈ candWords st lang ↔
        w ∈ candWords (processChunkA src tgt data failOn st (w :: ws)).1
          lang) := by
  have he := processChunkA_cons_none src tgt data failOn st w ws hmiss
  have h1 : (processChunkA src tgt data failOn st (w :: ws)).1 =
      (processChunkA src tgt data failOn st ws).1 := by rw [he]
  have hhas : hasSentence (processChunkA src tgt data failOn st
      (w :: ws)).1 w = hasSentence st w := by
    rw [h1]
    exact processChunkA_hasSentence src tgt data failOn ws st w hnotin
  have hwords : (processChunkA src tgt data failOn st (w :: ws)).1.words =
      st.words := by
    rw [h1]
    exact processChunkA_words src tgt data failOn ws st
  refine ⟨h1, by rw [he], by rw [he], hhas, ?_⟩
  rw [mem_candWords, mem_candWords, hwords, hhas]

/-- Witness for C5: over an empty store, a two-word chunk whose first form
(`kissa`) is missing from the response yields the same store as processing
just the second word, and `kissa` stays sentence-less. -/
theorem c5_missing_form_skipped_witness :
    lookupData [("koira", "Koira haukkuu.", "Sobaka laet.")] "kissa" = none
    ∧ ((⟨"fi", "kissa", 2⟩ : Word) ∉ [(⟨"fi", "koira", 1⟩ : Word)])
    ∧ (processChunkA "fi" "ru" [("koira", "Koira haukkuu.", "Sobaka laet.")]
        (fun _ => false) emptyStore
        [⟨"fi", "kissa", 2⟩, ⟨"fi", "koira", 1⟩]).1 =
      (processChunkA "fi" "ru" [("koira", "Koira haukkuu.", "Sobaka laet.")]
        (fun _ => false) emptyStore [⟨"fi", "koira", 1⟩]).1
    ∧ hasSentence (processChunkA "fi" "ru"
        [("koira", "Koira haukkuu.", "Sobaka laet.")]
        (fun _ => false) emptyStore
        [⟨"fi", "kissa", 2⟩, ⟨"fi", "koira", 1⟩]).1 ⟨"fi", "kissa", 2⟩ =
      hasSentence emptyStore ⟨"fi", "kissa", 2⟩ := by
  have h := c5_missing_form_skipped "fi" "ru" "fi"
    [("koira", "Koira haukkuu.", "Sobaka laet.")] (fun _ => false)
    emptyStore ⟨"fi", "kissa", 2⟩ [⟨"fi", "koira", 1⟩]
    (by decide) (by decide)
  exact ⟨by decide, by decide, h.1, h.2.2.2.1⟩

/-- Counterexample to C5 as stated: in variant B a chunk whose first word
(`kissa`) is missing from the response raises a `KeyError` before the
transaction: the rest of the chunk is not processed — no sentence is
created for the second word (`koira`) even though its data is present. -/
theorem c5_counterexample :
    processChunkB "fi" "ru" [("koira", "Koira haukkuu.", "Sobaka laet.")]
      false emptyStore [⟨"fi", "kissa", 2⟩, ⟨"fi", "koira", 1⟩] =
      (emptyStore, some (.keyError "kissa"))
    ∧ (⟨"fi", "Koira haukkuu."⟩ : Sentence) ∉
      (processChunkB "fi" "ru" [("koira", "Koira haukkuu.", "Sobaka laet.")]
        false emptyStore
        [⟨"fi", "kissa", 2⟩, ⟨"fi", "koira", 1⟩]).1.sentences :=
  ⟨by decide, by decide⟩

/-- Claim C6 (amended): in variant A, after any number of transient
server-side failures the call loop still retries — a rate-limit rejection
at any point aborts with the distinguished non-zero returncode
`RATE_LIMIT_ERROR = 2`, and a success at any point yields the data; in
variant B there is no handler: either error kind aborts the job at once
with the generic exit status 1. -/
theorem c6_rate_limit_fatal_server_retry (k : Nat) (m s : String)
    (d : DataMap) (rest : List Outcome) :
    callLoopA (List.replicate k (Outcome.serverError s) ++
      Outcome.rateLimit m :: rest) = some (.fatal m RATE_LIMIT_ERROR)
    ∧ RATE_LIMIT_ERROR ≠ 0
    ∧ callLoopA (List.replicate k (Outcome.serverError s) ++
      Outcome.success d :: rest) = some (.ok d)
    ∧ callOnceB (Outcome.rateLimit m) = .fatal m 1
    ∧ callOnceB (Outcome.serverError m) = .fatal m 1 := by
  refine ⟨?_, by decide, ?_, rfl, rfl⟩
  · induction k with
    | zero => simp [callLoopA, callLoopCount]
    | succ k ih =>
      simpa [List.replicate_succ, callLoopA, callLoopCount] using ih
  · induction k with
    | zero => simp [callLoopA, callLoopCount]
    | succ k ih =>
      simpa [List.replicate_succ, callLoopA, callLoopCount] using ih

/-- Counterexample to C6 as stated: in variant B a transient server-side
failure is not retried — the single attempt aborts the job with the generic
exit status 1, while variant A's loop would have retried on to the
success. -/
theorem c6_counterexample :
    callOnceB (Outcome.serverError "server error 503") =
      .fatal "server error 503" 1
    ∧ callOnceB (Outcome.serverError "server error 503") ≠ .ok []
    ∧ callLoopA [Outcome.serverError "server error 503",
        Outcome.success []] = some (.ok []) :=
  ⟨rfl, by decide, by decide⟩

/-- Claim C10: a generator run that finds zero candidate words writes the
warning and returns at once: the store is untouched, no service client is
constructed, no service attempt is made, and the run does not abort. -/
theorem c10_no_candidates_noop (src tgt : String)
    (traces : Nat → List Outcome) (failOn : String → Bool) (st : Store)
    (h : candidates st src = []) :
    generatorRunA src tgt traces failOn st =
      { store := st, warnedNoWords := true, clientConstructed := false,
        serviceAttempts := 0, aborted := false } := by
  simp [generatorRunA, h]

/-- Witness for C10 on the empty store. -/
theorem c10_no_candidates_noop_witness :
    candidates emptyStore "fi" = []
    ∧ generatorRunA "fi" "ru" (fun _ => []) (fun _ => false) emptyStore =
      { store := emptyStore, warnedNoWords := true,
        clientConstructed := false, serviceAttempts := 0,
        aborted := false } :=
  ⟨by decide,
   c10_no_candidates_noop "fi" "ru" (fun _ => []) (fun _ => false)
     emptyStore (by decide)⟩

end Gruffud
